import Mathlib

/-!
Verification of the gax9000 wafer auto-probe measurement controller.

The development shallowly embeds:
* the frontend JavaScript utility and handler functions
  (`utils.js`, `WaferControls.jsx`, `App.js`, `monitor/index.js`);
* the backend measurement-orchestration core (position math, result
  buffer, sequencer), modelled from the specification where the Python
  `controller/` package is not part of the available sources.

JavaScript numbers are modelled as an inductive type with NaN and the two
infinities alongside exact rationals; fallible paths return `Except` or
`Option`; stateful handlers are pure functions from state to
(emitted requests, new state).
-/

/-- Model of a JavaScript number: NaN, +Infinity, -Infinity, or a finite
value (modelled as an exact rational). -/
inductive JSNum where
  | nan : JSNum
  | posInf : JSNum
  | negInf : JSNum
  | fin : ℚ → JSNum
deriving DecidableEq, Repr

/-- Model of a JavaScript value as far as the handlers inspect it:
a number, a string, or anything else (objects, undefined, booleans ...). -/
inductive JSValue where
  | num : JSNum → JSValue
  | str : String → JSValue
  | other : JSValue
deriving DecidableEq, Repr

/-- `isNaN(v)` for a JS number. -/
def JSNum.isNaN : JSNum → Bool
  | .nan => true
  | _ => false

/-- Whether a JS number is a finite number (excludes NaN and infinities). -/
def JSNum.isFinite : JSNum → Bool
  | .fin _ => true
  | _ => false

/-- `utils.js` `isValidNumber(val)`: value is of type number and not NaN.
Note: infinities pass this check. -/
def isValidNumber : JSValue → Bool
  | .num n => !n.isNaN
  | _ => false

/-- All characters are decimal digits. -/
def allDigits (l : List Char) : Bool := l.all (·.isDigit)

/-- Decimal digit characters to a natural number. -/
def digitsToNat (l : List Char) : Nat :=
  l.foldl (fun a c => 10 * a + (c.toNat - 48)) 0

/-- Parse an unsigned decimal literal (`"12"`, `"12.5"`, `".5"`, `"5."`)
into a rational; `none` when the characters are not such a literal. -/
def parseUnsignedDec (l : List Char) : Option ℚ :=
  if l.contains '.' then
    let intPart := l.takeWhile (· ≠ '.')
    let fracPart := (l.dropWhile (· ≠ '.')).drop 1
    if fracPart.contains '.' then none
    else if intPart.isEmpty && fracPart.isEmpty then none
    else if allDigits intPart && allDigits fracPart then
      some ((digitsToNat intPart : ℚ) + (digitsToNat fracPart : ℚ) / (10 ^ fracPart.length))
    else none
  else
    if l.isEmpty then none
    else if allDigits l then some (digitsToNat l : ℚ) else none

/-- Parse an optionally signed decimal literal into a rational. -/
def parseSignedDec : List Char → Option ℚ
  | '-' :: rest => (parseUnsignedDec rest).map (fun q => -q)
  | '+' :: rest => parseUnsignedDec rest
  | l => parseUnsignedDec l

/-- Strip leading and trailing whitespace from a character list. -/
def trimChars (l : List Char) : List Char :=
  ((l.dropWhile Char.isWhitespace).reverse.dropWhile
    Char.isWhitespace).reverse

/-- Model of the JavaScript `Number(string)` coercion on the string inputs
the controller UI produces: surrounding whitespace is trimmed, the empty
string coerces to `0`, `"Infinity"` forms to the infinities, decimal
literals to their value, and anything else to NaN. -/
def jsToNumber (s : String) : JSNum :=
  let t := trimChars s.toList
  if t = [] then .fin 0
  else if t = "Infinity".toList || t = "+Infinity".toList then .posInf
  else if t = "-Infinity".toList then .negInf
  else
    match parseSignedDec t with
    | some q => .fin q
    | none => .nan

/-- JavaScript strict equality `===` between a stored old value and the
raw string coming from the input field (`e.target.value`): equal exactly
when the old value is the same string. -/
def jsStrictEqStr (old : JSValue) (s : String) : Bool :=
  match old with
  | .str t => t = s
  | _ => false

/-! ## Frontend controller requests and handlers -/

/-- A request the frontend pushes to the backend over
`axios.put("api/controller", ...)`. Only the message kinds the verified
handlers emit are modelled. -/
inductive ServerRequest where
  | moveChuckRelative (dx dy : JSNum) : ServerRequest
  | setUserSetting (user setting : String) (value : JSNum) : ServerRequest
  | runMeasurement (user : String) (data_folder : String)
      (sweep_save_data sweep_save_image : Bool) : ServerRequest
  | cancelMeasurement : ServerRequest
deriving DecidableEq, Repr

/-- `WaferControls.jsx` `handleMoveChuckRelative(axios, dxExpr, dyExpr)`,
as a function of the outcome of `eval(dxExpr)` / `eval(dyExpr)` (an
exception, or the resulting JS value). Returns the list of server
requests issued. If either `eval` throws, the handler returns after
logging; otherwise it issues `move_chuck_relative` exactly when both
values pass `isValidNumber`. -/
def handleMoveChuckRelative (dxRes dyRes : Except Unit JSValue) :
    List ServerRequest :=
  match dxRes with
  | .error _ => []
  | .ok dx =>
    match dyRes with
    | .error _ => []
    | .ok dy =>
      if isValidNumber dx && isValidNumber dy then
        match dx, dy with
        | .num ndx, .num ndy => [.moveChuckRelative ndx ndy]
        | _, _ => []
      else []

/-- Effect of one `WaferControls.jsx` `handleSetUserSetting` call:
the server requests issued and the value passed to `setValueLocal`
(or `none` when it is not called). -/
structure SetUserSettingEffect where
  requests : List ServerRequest
  localSet : Option String
deriving DecidableEq, Repr

/-- `WaferControls.jsx` `handleSetUserSetting(axios, user, setting,
Number, oldValue, newValue, setValueLocal)` for a numeric setting
(`type === Number`). `newValue` is the raw input-field string; `oldValue`
is the currently stored JS value. An empty user returns immediately;
an unchanged value (JS `!==`) does nothing; otherwise the string is
coerced via `Number(newValue)`, a `set_user_setting` request is sent only
when the coercion is a non-NaN number, and the local value is always set
to the raw string. -/
def handleSetUserSettingNumber (user setting : String)
    (oldValue : JSValue) (newValue : String) : SetUserSettingEffect :=
  if user = "" then
    { requests := [], localSet := none }
  else if jsStrictEqStr oldValue newValue then
    { requests := [], localSet := none }
  else
    let newValueParsed := jsToNumber newValue
    let valid := isValidNumber (.num newValueParsed)
    { requests :=
        if valid then [.setUserSetting user setting newValueParsed] else [],
      localSet := some newValue }

/-- The slice of `App.js` React state involved in starting a
measurement run. -/
structure AppState where
  measurementUser : String
  dataFolder : String
  sweepSaveData : Bool
  sweepSaveImage : Bool
  runConfirmDialog : Bool
  measurementRunning : Bool
deriving DecidableEq, Repr

/-- `App.js` `tryRunMeasurement`: basic validity check that opens the
confirmation dialog. Missing user, or saving enabled with an empty data
folder, logs an error and returns without touching any state; otherwise
only `runConfirmDialog` is set. No server request is ever issued here. -/
def tryRunMeasurement (st : AppState) : List ServerRequest × AppState :=
  if st.measurementUser = "" || (st.sweepSaveData && st.dataFolder = "") then
    ([], st)
  else
    ([], { st with runConfirmDialog := true })

/-- `App.js` `runMeasurement`: pushes the `run_measurement` request to the
server, sets `measurementRunning`, and closes the dialog. -/
def runMeasurementHandler (st : AppState) : List ServerRequest × AppState :=
  ([.runMeasurement st.measurementUser st.dataFolder
      st.sweepSaveData st.sweepSaveImage],
   { st with measurementRunning := true, runConfirmDialog := false })

/-- One run request as the UI wires it: `tryRunMeasurement` runs first;
the `DialogRunMeasurement` confirm button (live only while
`runConfirmDialog` is open) then invokes `runMeasurement` when the user
confirms. -/
def runRequestFlow (st : AppState) (confirm : Bool) :
    List ServerRequest × AppState :=
  let step1 := tryRunMeasurement st
  if step1.2.runConfirmDialog && confirm then
    let step2 := runMeasurementHandler step1.2
    (step1.1 ++ step2.1, step2.2)
  else
    step1

/-! ## Monitor (frontend/src/monitor/index.js) -/

/-- One dataset entry stored in the monitor's `datasets` map: the raw
program name carried by `data.metadata.program` together with the step
counter of the snapshot (standing in for the full payload). -/
structure MonitorDataset where
  program : String
  step : Nat
deriving DecidableEq, Repr

/-- The `renderPrograms` routing map of `monitor/index.js`: raw program
name to the `name` of the renderer component handling it. -/
def renderPrograms : List (String × String) :=
  [("debug", "ProgramDebug"),
   ("debug_multistep", "ProgramDebug"),
   ("keysight_id_vds", "ProgramIdVds"),
   ("keysight_id_vds_pulsed_dc", "ProgramIdVds"),
   ("keysight_id_vgs", "ProgramIdVgs"),
   ("keysight_id_vgs_pulsed_dc", "ProgramIdVgs"),
   ("keysight_cmos_vout_vin", "ProgramCMOSVoutVin"),
   ("keysight_rram_1t1r", "ProgramRram1T1R"),
   ("keysight_rram_1t1r_sweep", "ProgramRram1T1R"),
   ("keysight_rram_1t1r_sequence", "ProgramRram1T1R")]

/-- `renderPrograms.get(name)`: the renderer component name for a raw
program name, or `none` for an unknown program. -/
def lookupRenderer (program : String) : Option String :=
  (renderPrograms.find? (fun p => p.1 = program)).map (·.2)

/-- JS `Map.set`: replace the value at an existing key in place, else
append a new (key, value) pair at the end. -/
def mapSet (m : List (String × MonitorDataset)) (k : String)
    (v : MonitorDataset) : List (String × MonitorDataset) :=
  if m.any (fun p => p.1 = k) then
    m.map (fun p => if p.1 = k then (k, v) else p)
  else
    m ++ [(k, v)]

/-- The `Monitor` component state: the timestamp-keyed `datasets` map
(modelled as an insertion-ordered association list, as a JS `Map`), the
`append` toggle, and `currProgramType` (the renderer name of the program
currently displayed). -/
structure MonitorState where
  datasets : List (String × MonitorDataset)
  append : Bool
  currProgramType : String
deriving DecidableEq, Repr

/-- An incoming SSE data event as the monitor reads it:
`data.metadata.config.timestamp` and `data.metadata.program`, plus the
snapshot payload. -/
structure MonitorEvent where
  timestamp : String
  program : String
  step : Nat
deriving DecidableEq, Repr

/-- The `eventSrc.onmessage` handler of `monitor/index.js`: route the
program name through `renderPrograms`; an unknown program renders
`ProgramUnknown` and leaves `datasets` untouched. For a known program,
start from a copy of the current map when the renderer matches
`currProgramType` and `append` is on, otherwise from an empty map
(updating `currProgramType` when the renderer differs); then `set` the
incoming dataset under its timestamp. -/
def monitorOnMessage (st : MonitorState) (ev : MonitorEvent) :
    MonitorState :=
  match lookupRenderer ev.program with
  | none => st
  | some rendererName =>
    let base :=
      if rendererName = st.currProgramType then
        if st.append then st.datasets else []
      else []
    { datasets := mapSet base ev.timestamp
        { program := ev.program, step := ev.step },
      append := st.append,
      currProgramType := rendererName }

/-- The monitor invariant: timestamps key the map uniquely, and every
stored entry's program routes to the currently displayed renderer. -/
def MonitorInv (st : MonitorState) : Prop :=
  (st.datasets.map Prod.fst).Nodup ∧
  ∀ p ∈ st.datasets, lookupRenderer p.2.program = some st.currProgramType

instance (st : MonitorState) : Decidable (MonitorInv st) := by
  unfold MonitorInv; infer_instance

/-! ## WaferPositionStepper (backend, modelled from the spec) -/

/-- One wafer height-compensation entry: integer die coordinates and the
measured height offset `dz` in µm. -/
structure HeightOffsetEntry where
  x : Int
  y : Int
  dz : ℚ
deriving DecidableEq, Repr

/-- Modelled from the spec: the backend `WaferCalibration` record of the
`controller` Python package, which is not among the available sources.
Die size and offset in µm, the per-device pitch (the user-setting
`device_x`/`device_y` spacing), and the height-offset table loaded from
the wafer calibration file. -/
structure WaferCalibration where
  die_size_x : ℚ
  die_size_y : ℚ
  die_offset_x : ℚ
  die_offset_y : ℚ
  device_pitch_x : ℚ
  device_pitch_y : ℚ
  height_offset_table : List HeightOffsetEntry
deriving DecidableEq, Repr

/-- A resolved absolute stage position. -/
structure Position where
  x : ℚ
  y : ℚ
  z : ℚ
deriving DecidableEq, Repr

/-- Modelled from the spec: backend `lookup_height_offset(die_x, die_y,
table)` of the missing `controller` package — exact-key lookup against
the integer die coordinates; an absent key yields the default `0.0`
without an error. -/
def lookup_height_offset (die_x die_y : Int)
    (table : List HeightOffsetEntry) : ℚ :=
  match table.find? (fun e => e.x = die_x && e.y = die_y) with
  | some e => e.dz
  | none => 0

/-- Modelled from the spec: backend `compute_position(die_x, die_y,
device_row, device_col, calibration)` of the missing `controller`
package — `x = die_x * die_size_x + device_col * device_pitch_x +
die_offset_x`, analogously for `y`, and `z` from the height-offset
table lookup. -/
def compute_position (die_x die_y device_row device_col : Int)
    (calibration : WaferCalibration) : Position :=
  { x := die_x * calibration.die_size_x
        + device_col * calibration.device_pitch_x
        + calibration.die_offset_x,
    y := die_y * calibration.die_size_y
        + device_row * calibration.device_pitch_y
        + calibration.die_offset_y,
    z := lookup_height_offset die_x die_y calibration.height_offset_table }

/-- The measured height-offset table of
`scripts/test/data/wafer_height_measured.toml` (die coordinates made
integral, dz in µm). -/
def die_height_offset : List HeightOffsetEntry :=
  [⟨0, 0, 0⟩,
   ⟨1, 0, 0⟩,
   ⟨2, 0, -20⟩,
   ⟨3, 0, -756/10⟩,
   ⟨-1, 0, -1⟩,
   ⟨-2, 0, -117/10⟩,
   ⟨-3, 0, -553/10⟩,
   ⟨0, 1, -3⟩,
   ⟨0, 2, -314/10⟩,
   ⟨0, 3, -988/10⟩,
   ⟨0, -1, 0⟩,
   ⟨0, -2, -228/10⟩,
   ⟨0, -3, -902/10⟩,
   ⟨1, 1, -92/10⟩,
   ⟨2, 2, -792/10⟩,
   ⟨1, -1, -57/10⟩,
   ⟨2, -2, -71⟩,
   ⟨-1, 1, -86/10⟩,
   ⟨-2, 2, -683/10⟩,
   ⟨-1, -1, -45/10⟩,
   ⟨-2, -2, -583/10⟩]

/-- The calibration described by `wafer_height_measured.toml`
(`die_size_x = 24425.0`, `die_size_y = 28425.0`) with zero offsets and
pitch, carrying the measured height-offset table. -/
def gax2Calibration : WaferCalibration :=
  { die_size_x := 24425,
    die_size_y := 28425,
    die_offset_x := 0,
    die_offset_y := 0,
    device_pitch_x := 0,
    device_pitch_y := 0,
    height_offset_table := die_height_offset }

/-! ## SweepResultBuffer (backend, modelled from the spec) -/

/-- An entry of an emitted dataset array: a real measured value or the
NaN padding sentinel. -/
inductive FloatVal where
  | nan : FloatVal
  | val : ℚ → FloatVal
deriving DecidableEq, Repr

/-- One recorded unit of the result buffer (a sequence step or bias
point): its step name, its true point count, and its raw sample rows,
one row per sweep direction. Modelled from the spec: the backend
`SweepResultBuffer` keeps the `(values, true_length)` pair per unit. -/
structure RecordedUnit where
  name : String
  npoints : Nat
  values : List (List ℚ)
deriving DecidableEq, Repr

/-- A recorded unit is well formed when each direction row holds exactly
`npoints` raw samples. -/
def RecordedUnit.WF (u : RecordedUnit) : Prop :=
  ∀ row ∈ u.values, row.length = u.npoints

instance (u : RecordedUnit) : Decidable u.WF := by
  unfold RecordedUnit.WF; infer_instance

/-- Modelled from the spec: the emitted `ResultDataset` of the backend
buffer — arrays shaped `(units, directions, num_points_max)`, the
parallel `num_points` true lengths, the step names, and the `step`
counter of completed units. -/
structure ResultDataset where
  step : Nat
  num_points_max : Nat
  num_points : List Nat
  step_names : List String
  data : List (List (List FloatVal))
deriving DecidableEq, Repr

/-- Maximum of a list of lengths (0 for an empty buffer). -/
def listMax (l : List Nat) : Nat := l.foldr max 0

/-- Right-pad one raw sample row to `width` entries with the NaN
sentinel. -/
def padRow (row : List ℚ) (width : Nat) : List FloatVal :=
  row.map FloatVal.val ++ List.replicate (width - row.length) FloatVal.nan

/-- Modelled from the spec: the backend buffer's materialization — compute
`num_points_max` as the maximum recorded true length, right-pad every
unit's rows to that width with NaN, and emit the parallel `num_points`
and `step_names`; `step` is the number of units recorded so far. -/
def emitDataset (buf : List RecordedUnit) : ResultDataset :=
  let width := listMax (buf.map (·.npoints))
  { step := buf.length,
    num_points_max := width,
    num_points := buf.map (·.npoints),
    step_names := buf.map (·.name),
    data := buf.map (fun u => u.values.map (fun row => padRow row width)) }

/-- The entry of an emitted dataset at unit `i`, direction `d`, point
index `j` — the access path `data[i][d][j]` a consumer such as
`ProgramRram1T1R` uses. -/
def datasetEntry (ds : ResultDataset) (i d j : Nat) : Option FloatVal :=
  (ds.data[i]?.bind (fun rows => rows[d]?)).bind (fun row => row[j]?)

/-- The 6-step ragged FORM/RESET/SET/RESET/SET/RESET scenario with step
lengths `[5, 4, 3, 4, 3, 4]` and two sweep directions; the raw sample
values are the drain voltages of the documented example. -/
def raggedRun6 : List RecordedUnit :=
  [⟨"FORM", 5, [[0, 1, 2, 3, 4], [4, 3, 2, 1, 0]]⟩,
   ⟨"RESET", 4, [[0, -1, -2, -3], [-3, -2, -1, 0]]⟩,
   ⟨"SET", 3, [[0, 1, 2], [2, 1, 0]]⟩,
   ⟨"RESET", 4, [[0, -1, -2, -3], [-3, -2, -1, 0]]⟩,
   ⟨"SET", 3, [[0, 1, 2], [2, 1, 0]]⟩,
   ⟨"RESET", 4, [[0, -1, -2, -3], [-3, -2, -1, 0]]⟩]

/-! ## ProgramSequencer and CancellationController (backend, modelled
from the spec) -/

/-- The sequencer error raised when a second run is requested while one
is active. -/
inductive SequencerError where
  | alreadyRunning : SequencerError
deriving DecidableEq, Repr

/-- Terminal status of a run. -/
inductive RunStatus where
  | completed : RunStatus
  | failed : RunStatus
  | cancelled : RunStatus
deriving DecidableEq, Repr

/-- Modelled from the spec: a `MeasurementRun` owned by the sequencer —
its ordered per-step work items (the flattened step chain over
positions and programs) plus save flags and identity. Each work item
is the `RecordedUnit` the instrument driver will return for that step. -/
structure MeasurementRun where
  timestamp : String
  steps : List RecordedUnit
  save_data : Bool
  save_image : Bool
deriving DecidableEq, Repr

/-- Modelled from the spec: the process-wide sequencer state — the single
mutable "running" flag, the exclusively owned active run, and the
cooperative cancellation flag. -/
structure SequencerState where
  running : Bool
  activeRun : Option MeasurementRun
  cancelRequested : Bool
deriving DecidableEq, Repr

/-- Modelled from the spec: `start(run)` of the backend sequencer, the
gate behind `run_measurement`. When the running flag is set it fails
with `AlreadyRunningError` and leaves the state — in particular the
in-progress run — untouched; otherwise it takes ownership of the new
run, sets the flag, and clears the cancellation flag. -/
def sequencerStart (st : SequencerState) (run : MeasurementRun) :
    Except SequencerError Unit × SequencerState :=
  if st.running then
    (.error .alreadyRunning, st)
  else
    (.ok (),
     { running := true, activeRun := some run, cancelRequested := false })

/-- An observable event of a run: an instrument command executing one
step, a progress emission carrying the buffer snapshot, or the single
terminal event. -/
inductive RunEvent where
  | instrCommand (stepName : String) : RunEvent
  | progress (snapshot : ResultDataset) : RunEvent
  | terminal (status : RunStatus) : RunEvent
deriving DecidableEq, Repr

/-- Whether an event is an instrument command. -/
def RunEvent.isInstrCommand : RunEvent → Bool
  | .instrCommand _ => true
  | _ => false

/-- Whether an event is a terminal event. -/
def RunEvent.isTerminal : RunEvent → Bool
  | .terminal _ => true
  | _ => false

/-- Modelled from the spec: the sequencer's main loop over the remaining
steps. `cancelIn` is the number of checkpoints that will still observe a
clear cancellation flag: a cancellation requested while step `t` (0-based
among the remaining steps) executes is observed by the checkpoint right
after step `t`, i.e. `cancelIn = t`. Each step issues its instrument
command, appends its samples to the buffer, and emits a progress
snapshot; the checkpoint after the step either stops the run with the
single terminal `Cancelled` event or continues; an exhausted step list
ends the run with `Completed`. Returns the event trace and the final
buffer. -/
def sequencerLoop : Nat → List RecordedUnit → List RecordedUnit →
    List RunEvent × List RecordedUnit
  | _, [], buf => ([.terminal .completed], buf)
  | cancelIn, s :: rest, buf =>
    let buf2 := buf ++ [s]
    match cancelIn with
    | 0 =>
      ([.instrCommand s.name, .progress (emitDataset buf2),
        .terminal .cancelled], buf2)
    | n + 1 =>
      let tail := sequencerLoop n rest buf2
      (.instrCommand s.name :: .progress (emitDataset buf2) :: tail.1,
       tail.2)

/-- Modelled from the spec: execute a whole run from an empty buffer,
with a cancellation request arriving during step `cancelAt` of the
flattened chain (`cancelAt ≥ steps.length` means no cancellation is ever
observed). -/
def executeRun (run : MeasurementRun) (cancelAt : Nat) :
    List RunEvent × List RecordedUnit :=
  sequencerLoop cancelAt run.steps []

/-! ## Theorems -/

/-- C4: for every logical address and calibration, `compute_position`
returns `x = die_x * die_size_x + device_col * device_pitch_x +
die_offset_x` (analogously for y) and `z` equal to the height-offset
table lookup; with `die_size_x = 24425.0` and the calibration entry
`{x: 2, y: 0, dz: -20.0}`, `compute_position 2 0 0 0` yields `z = -20.0`,
deterministically across repeated calls. -/
theorem compute_position_formula_and_example :
    (∀ (die_x die_y device_row device_col : Int)
       (cal : WaferCalibration),
      compute_position die_x die_y device_row device_col cal =
        { x := die_x * cal.die_size_x + device_col * cal.device_pitch_x
              + cal.die_offset_x,
          y := die_y * cal.die_size_y + device_row * cal.device_pitch_y
              + cal.die_offset_y,
          z := lookup_height_offset die_x die_y
              cal.height_offset_table } ∧
      compute_position die_x die_y device_row device_col cal =
        compute_position die_x die_y device_row device_col cal) ∧
    gax2Calibration.die_size_x = 24425 ∧
    (⟨2, 0, -20⟩ : HeightOffsetEntry) ∈
      gax2Calibration.height_offset_table ∧
    (compute_position 2 0 0 0 gax2Calibration).z = -20 :=
  ⟨fun _ _ _ _ _ => ⟨rfl, rfl⟩, rfl, by decide, by decide⟩

/-- C5: `lookup_height_offset` is an exact-key lookup; for every die
coordinate absent from the table it returns the default `0.0` without
an error, deterministically across repeated calls. -/
theorem lookup_height_offset_default (die_x die_y : Int)
    (table : List HeightOffsetEntry)
    (habs : ∀ e ∈ table, ¬(e.x = die_x ∧ e.y = die_y)) :
    lookup_height_offset die_x die_y table = 0 ∧
    lookup_height_offset die_x die_y table =
      lookup_height_offset die_x die_y table := by
  refine ⟨?_, rfl⟩
  unfold lookup_height_offset
  have hnone : table.find? (fun e => e.x = die_x && e.y = die_y) = none := by
    rw [List.find?_eq_none]
    intro e he
    have := habs e he
    simp only [Bool.and_eq_true, decide_eq_true_eq]
    tauto
  rw [hnone]

/-- C5 witness: die (5, 5) is absent from the measured table and looks
up to the default 0. -/
theorem lookup_height_offset_default_witness :
    lookup_height_offset 5 5 die_height_offset = 0 ∧
    lookup_height_offset 5 5 die_height_offset =
      lookup_height_offset 5 5 die_height_offset :=
  lookup_height_offset_default 5 5 die_height_offset (by decide)

/-- C2: in every state whose running flag is set, `start` fails with
`AlreadyRunningError`, the sequencer state — in particular the
in-progress run — is unchanged, and no second run is started. -/
theorem sequencerStart_already_running (st : SequencerState)
    (run : MeasurementRun) (h : st.running = true) :
    sequencerStart st run = (.error .alreadyRunning, st) ∧
    (sequencerStart st run).2.activeRun = st.activeRun ∧
    (sequencerStart st run).2.running = st.running := by
  simp [sequencerStart, h]

/-- C2 witness: starting a second run while a run is active fails and
leaves the active run in place. -/
theorem sequencerStart_already_running_witness :
    sequencerStart
        ⟨true, some ⟨"run1", raggedRun6, true, true⟩, false⟩
        ⟨"run2", [], true, true⟩ =
      (.error .alreadyRunning,
        ⟨true, some ⟨"run1", raggedRun6, true, true⟩, false⟩) :=
  (sequencerStart_already_running
    ⟨true, some ⟨"run1", raggedRun6, true, true⟩, false⟩
    ⟨"run2", [], true, true⟩ rfl).1

/-- C7: a run request with a missing user, or with saving enabled and an
empty data folder, is rejected before any server command with no state
mutation; a `run_measurement` command is sent only when the user is
non-empty and saving implies a non-empty data folder. -/
theorem run_measurement_input_gate (st : AppState) (confirm : Bool)
    (hdialog : st.runConfirmDialog = false) :
    ((st.measurementUser = "" ∨
        (st.sweepSaveData = true ∧ st.dataFolder = "")) →
      runRequestFlow st confirm = ([], st)) ∧
    ((runRequestFlow st confirm).1 ≠ [] →
      st.measurementUser ≠ "" ∧
        (st.sweepSaveData = true → st.dataFolder ≠ "")) := by
  by_cases h1 : st.measurementUser = ""
  · constructor
    · intro _
      simp [runRequestFlow, tryRunMeasurement, h1, hdialog]
    · intro hne
      exfalso
      apply hne
      simp [runRequestFlow, tryRunMeasurement, h1, hdialog]
  · by_cases h2 : st.sweepSaveData = true ∧ st.dataFolder = ""
    · constructor
      · intro _
        simp [runRequestFlow, tryRunMeasurement, h1, h2.1, h2.2, hdialog]
      · intro hne
        exfalso
        apply hne
        simp [runRequestFlow, tryRunMeasurement, h1, h2.1, h2.2, hdialog]
    · constructor
      · intro hcase
        rcases hcase with hu | hsave
        · exact absurd hu h1
        · exact absurd hsave h2
      · intro _
        refine ⟨h1, fun hsd hdf => h2 ⟨hsd, hdf⟩⟩

/-- C7 witness: with saving enabled and an empty data folder the flow
issues no request and mutates nothing, even when the user confirms. -/
theorem run_measurement_input_gate_witness :
    runRequestFlow ⟨"alice", "", true, true, false, false⟩ true =
      ([], ⟨"alice", "", true, true, false, false⟩) :=
  (run_measurement_input_gate ⟨"alice", "", true, true, false, false⟩
    true rfl).1 (Or.inr ⟨rfl, rfl⟩)

/-- C10: for a numeric user-setting edit, an empty user does nothing at
all; an unchanged value does nothing; a value whose `Number` coercion is
NaN sends no server request but still sets the local displayed value to
the raw input string; and a request is sent (with the parsed value)
exactly when the coercion yields a non-NaN number. -/
theorem set_user_setting_numeric_behavior (user setting : String)
    (oldValue : JSValue) (newValue : String) :
    (user = "" →
      handleSetUserSettingNumber user setting oldValue newValue =
        ⟨[], none⟩) ∧
    (jsStrictEqStr oldValue newValue = true →
      handleSetUserSettingNumber user setting oldValue newValue =
        ⟨[], none⟩) ∧
    (user ≠ "" → jsStrictEqStr oldValue newValue = false →
      jsToNumber newValue = .nan →
      handleSetUserSettingNumber user setting oldValue newValue =
        ⟨[], some newValue⟩) ∧
    (user ≠ "" → jsStrictEqStr oldValue newValue = false →
      jsToNumber newValue ≠ .nan →
      handleSetUserSettingNumber user setting oldValue newValue =
        ⟨[.setUserSetting user setting (jsToNumber newValue)],
          some newValue⟩) := by
  refine ⟨?_, ?_, ?_, ?_⟩
  · intro hu
    simp [handleSetUserSettingNumber, hu]
  · intro heq
    by_cases hu : user = ""
    · simp [handleSetUserSettingNumber, hu]
    · simp [handleSetUserSettingNumber, hu, heq]
  · intro hu heq hnan
    have hvalid : isValidNumber (.num (jsToNumber newValue)) = false := by
      rw [hnan]; rfl
    simp [handleSetUserSettingNumber, hu, heq, hvalid]
  · intro hu heq hnan
    have hvalid : isValidNumber (.num (jsToNumber newValue)) = true := by
      unfold isValidNumber JSNum.isNaN
      cases h : jsToNumber newValue with
      | nan => exact absurd h hnan
      | posInf => rfl
      | negInf => rfl
      | fin q => rfl
    simp [handleSetUserSettingNumber, hu, heq, hvalid]

/-- C10 witness: a non-numeric edit by a valid user sends nothing but
updates the local display. -/
theorem set_user_setting_numeric_behavior_witness :
    handleSetUserSettingNumber "alice" "die_size_x"
        (.num (.fin 0)) "abc" = ⟨[], some "abc"⟩ :=
  (set_user_setting_numeric_behavior "alice" "die_size_x"
      (.num (.fin 0)) "abc").2.2.1
    (by decide) (by decide) (by decide)

/-- C6 counterexample: a jog whose `dx` expression evaluates to the
non-finite number `Infinity` is NOT rejected — `handleMoveChuckRelative`
issues the `move_chuck_relative` command, because `isValidNumber` only
rules out non-numbers and NaN. -/
theorem move_chuck_relative_infinity_not_rejected :
    JSNum.posInf.isFinite = false ∧
    handleMoveChuckRelative (.ok (.num .posInf)) (.ok (.num (.fin 0))) =
      [.moveChuckRelative .posInf (.fin 0)] := by
  decide

/-- C6 amended: if either evaluated value is not a non-NaN number (or
either `eval` throws), the move is rejected before any stage command (no
request of any kind is issued, hence no partial state mutation); a move
command is issued only when both values are non-NaN numbers — and for
every such pair the issued command is exactly `move_chuck_relative` with
those values (infinities included). -/
theorem move_chuck_relative_valid_number_gate
    (dxRes dyRes : Except Unit JSValue) :
    (∀ dx dy, dxRes = .ok dx → dyRes = .ok dy →
      (isValidNumber dx = false ∨ isValidNumber dy = false) →
      handleMoveChuckRelative dxRes dyRes = []) ∧
    (dxRes = .error () → handleMoveChuckRelative dxRes dyRes = []) ∧
    (dyRes = .error () → handleMoveChuckRelative dxRes dyRes = []) ∧
    (handleMoveChuckRelative dxRes dyRes ≠ [] →
      ∃ ndx ndy, dxRes = .ok (.num ndx) ∧ dyRes = .ok (.num ndy) ∧
        ndx ≠ .nan ∧ ndy ≠ .nan ∧
        handleMoveChuckRelative dxRes dyRes =
          [.moveChuckRelative ndx ndy]) ∧
    (∀ ndx ndy, dxRes = .ok (.num ndx) → dyRes = .ok (.num ndy) →
      ndx ≠ .nan → ndy ≠ .nan →
      handleMoveChuckRelative dxRes dyRes =
        [.moveChuckRelative ndx ndy]) := by
  refine ⟨?_, ?_, ?_, ?_, ?_⟩
  · intro dx dy hdx hdy hbad
    subst hdx; subst hdy
    rcases hbad with hb | hb <;>
      simp [handleMoveChuckRelative, hb]
  · intro hdx
    subst hdx
    rfl
  · intro hdy
    subst hdy
    cases dxRes with
    | error e => rfl
    | ok dx => rfl
  · intro hne
    cases dxRes with
    | error e => exact absurd rfl hne
    | ok dx =>
      cases dyRes with
      | error e => exact absurd rfl hne
      | ok dy =>
        cases hvx : isValidNumber dx with
        | false =>
          exfalso; apply hne
          simp [handleMoveChuckRelative, hvx]
        | true =>
          cases hvy : isValidNumber dy with
          | false =>
            exfalso; apply hne
            simp [handleMoveChuckRelative, hvy]
          | true =>
            cases dx with
            | num ndx =>
              cases dy with
              | num ndy =>
                refine ⟨ndx, ndy, rfl, rfl, ?_, ?_, ?_⟩
                · intro hnan
                  rw [hnan] at hvx
                  exact absurd hvx (by decide)
                · intro hnan
                  rw [hnan] at hvy
                  exact absurd hvy (by decide)
                · simp [handleMoveChuckRelative, hvx, hvy]
              | str s => simp [isValidNumber] at hvy
              | other => simp [isValidNumber] at hvy
            | str s => simp [isValidNumber] at hvx
            | other => simp [isValidNumber] at hvx
  · intro ndx ndy hdx hdy hnx hny
    subst hdx; subst hdy
    have hvx : isValidNumber (.num ndx) = true := by
      unfold isValidNumber JSNum.isNaN
      cases ndx with
      | nan => exact absurd rfl hnx
      | posInf => rfl
      | negInf => rfl
      | fin q => rfl
    have hvy : isValidNumber (.num ndy) = true := by
      unfold isValidNumber JSNum.isNaN
      cases ndy with
      | nan => exact absurd rfl hny
      | posInf => rfl
      | negInf => rfl
      | fin q => rfl
    simp [handleMoveChuckRelative, hvx, hvy]

/-- C6 amended witness: a NaN-valued jog expression issues no command. -/
theorem move_chuck_relative_valid_number_gate_witness :
    handleMoveChuckRelative (.ok (.num .nan)) (.ok (.num (.fin 240))) =
      [] :=
  (move_chuck_relative_valid_number_gate
      (.ok (.num .nan)) (.ok (.num (.fin 240)))).1
    (.num .nan) (.num (.fin 240)) rfl rfl (Or.inl rfl)

/-- Helper for the cancellation theorem: whenever the cancellation flag
becomes visible before the step list is exhausted, the loop's trace ends
in a single terminal `Cancelled` event, executes exactly `cancelIn + 1`
instrument commands, and leaves the buffer holding exactly the completed
prefix of steps. -/
theorem sequencerLoop_cancel_spec (steps : List RecordedUnit) :
    ∀ (cancelIn : Nat) (buf : List RecordedUnit),
      cancelIn < steps.length →
      ∃ pre,
        (sequencerLoop cancelIn steps buf).1 =
          pre ++ [.terminal .cancelled] ∧
        (sequencerLoop cancelIn steps buf).1.filter RunEvent.isTerminal =
          [.terminal .cancelled] ∧
        ((sequencerLoop cancelIn steps buf).1.filter
          RunEvent.isInstrCommand).length = cancelIn + 1 ∧
        (sequencerLoop cancelIn steps buf).2 =
          buf ++ steps.take (cancelIn + 1) := by
  induction steps with
  | nil =>
    intro cancelIn buf h
    exact absurd h (by simp)
  | cons s rest ih =>
    intro cancelIn buf h
    cases cancelIn with
    | zero =>
      refine ⟨[.instrCommand s.name,
               .progress (emitDataset (buf ++ [s]))], ?_, ?_, ?_, ?_⟩
      · rfl
      · simp [sequencerLoop, List.filter, RunEvent.isTerminal]
      · simp [sequencerLoop, List.filter, RunEvent.isInstrCommand,
          RunEvent.isTerminal]
      · simp [sequencerLoop]
    | succ n =>
      have hn : n < rest.length := by
        simpa using Nat.lt_of_succ_lt_succ h
      obtain ⟨pre, hpre, hterm, hinstr, hbuf⟩ := ih n (buf ++ [s]) hn
      refine ⟨.instrCommand s.name ::
              .progress (emitDataset (buf ++ [s])) :: pre, ?_, ?_, ?_, ?_⟩
      · simp only [sequencerLoop]
        rw [hpre]
        rfl
      · simp only [sequencerLoop, List.filter, RunEvent.isTerminal]
        exact hterm
      · simp only [sequencerLoop, List.filter, RunEvent.isInstrCommand,
          RunEvent.isTerminal]
        simp only [List.length_cons]
        rw [hinstr]
      · simp only [sequencerLoop]
        rw [hbuf, List.append_assoc]
        rfl

/-- C3: for every run in which cancellation is requested while a step is
executing (`cancelAt < run.steps.length`), the current step runs to
completion, the sequencer stops before starting any next step (exactly
`cancelAt + 1` instrument commands are issued and none after the
terminal event, which is the last of the trace), exactly one terminal
`Cancelled` event is emitted, and the run finalizes with the partial
buffer holding exactly the completed steps. -/
theorem checkpointed_cancellation (run : MeasurementRun) (cancelAt : Nat)
    (h : cancelAt < run.steps.length) :
    ∃ pre,
      (executeRun run cancelAt).1 = pre ++ [.terminal .cancelled] ∧
      (executeRun run cancelAt).1.filter RunEvent.isTerminal =
        [.terminal .cancelled] ∧
      ((executeRun run cancelAt).1.filter
        RunEvent.isInstrCommand).length = cancelAt + 1 ∧
      (executeRun run cancelAt).2 = run.steps.take (cancelAt + 1) := by
  have := sequencerLoop_cancel_spec run.steps cancelAt [] h
  simpa [executeRun] using this

/-- C3 witness: cancelling the 6-step ragged run during its third step
stops it after exactly three instrument commands with a single terminal
`Cancelled` event. -/
theorem checkpointed_cancellation_witness :
    2 < (MeasurementRun.mk "t0" raggedRun6 true true).steps.length ∧
    ∃ pre,
      (executeRun ⟨"t0", raggedRun6, true, true⟩ 2).1 =
        pre ++ [.terminal .cancelled] ∧
      (executeRun ⟨"t0", raggedRun6, true, true⟩ 2).1.filter
        RunEvent.isTerminal = [.terminal .cancelled] ∧
      ((executeRun ⟨"t0", raggedRun6, true, true⟩ 2).1.filter
        RunEvent.isInstrCommand).length = 2 + 1 ∧
      (executeRun ⟨"t0", raggedRun6, true, true⟩ 2).2 =
        raggedRun6.take (2 + 1) :=
  ⟨by decide,
   checkpointed_cancellation ⟨"t0", raggedRun6, true, true⟩ 2 (by decide)⟩

/-- Every element of a list of lengths is bounded by `listMax`. -/
theorem le_listMax (l : List Nat) : ∀ n ∈ l, n ≤ listMax l := by
  induction l with
  | nil => intro n hn; cases hn
  | cons a t ih =>
    intro n hn
    cases hn with
    | head => exact Nat.le_max_left a (listMax t)
    | tail _ ht =>
      exact Nat.le_trans (ih n ht) (Nat.le_max_right a (listMax t))

/-- A padded row reads the NaN sentinel at every index at or beyond the
raw length and below the padded width. -/
theorem padRow_getElem_ge (row : List ℚ) (width j : Nat)
    (hlo : row.length ≤ j) (hhi : j < width) :
    (padRow row width)[j]? = some FloatVal.nan := by
  unfold padRow
  have hmap : (row.map FloatVal.val).length ≤ j := by
    simpa using hlo
  rw [List.getElem?_append_right hmap]
  rw [List.getElem?_replicate]
  have : j - (row.map FloatVal.val).length <
      width - row.length := by
    simp only [List.length_map]
    omega
  simp only [List.length_map] at this ⊢
  rw [if_pos this]

/-- A padded row reads the raw value at every index below the raw
length. -/
theorem padRow_getElem_lt (row : List ℚ) (width j : Nat)
    (h : j < row.length) :
    (padRow row width)[j]? = (row[j]?).map FloatVal.val := by
  unfold padRow
  rw [List.getElem?_append]
  rw [if_pos (by simpa using h)]
  exact List.getElem?_map FloatVal.val row j

/-- Unit `i` of an emitted dataset is the padding of recorded unit `i`. -/
theorem emitDataset_data_getElem (buf : List RecordedUnit) (i : Nat) :
    (emitDataset buf).data[i]? =
      (buf[i]?).map (fun u => u.values.map
        (fun row => padRow row (listMax (buf.map (·.npoints))))) := by
  simp only [emitDataset]
  exact List.getElem?_map _ buf i

/-- C1: for every well-formed recorded buffer with per-unit lengths
`L`, the emitted dataset has width `num_points_max = max L`,
`num_points = L`, and every entry of unit `i` at point index `≥ L_i`
is the NaN sentinel; in particular the 6-step ragged run with lengths
`[5,4,3,4,3,4]` emits `num_points_max = 5`, shape
`(6, num_directions, 5)`, and `num_points = [5,4,3,4,3,4]`. -/
theorem padding_invariant_and_ragged_run :
    (∀ (buf : List RecordedUnit), (∀ u ∈ buf, u.WF) →
      (emitDataset buf).num_points_max =
        listMax (buf.map (·.npoints)) ∧
      (emitDataset buf).num_points = buf.map (·.npoints) ∧
      (∀ (i : Nat) (u : RecordedUnit), buf[i]? = some u →
        ∀ (rows : List (List FloatVal)),
          (emitDataset buf).data[i]? = some rows →
          ∀ row ∈ rows, ∀ (j : Nat), u.npoints ≤ j →
            j < (emitDataset buf).num_points_max →
            row[j]? = some FloatVal.nan)) ∧
    ((emitDataset raggedRun6).num_points_max = 5 ∧
     (emitDataset raggedRun6).num_points = [5, 4, 3, 4, 3, 4] ∧
     (emitDataset raggedRun6).data.length = 6 ∧
     ∀ rows ∈ (emitDataset raggedRun6).data,
       rows.length = 2 ∧ ∀ row ∈ rows, row.length = 5) := by
  constructor
  · intro buf hwf
    refine ⟨rfl, rfl, ?_⟩
    intro i u hu rows hrows row hrow j hj hjw
    have hdata := emitDataset_data_getElem buf i
    rw [hu] at hdata
    rw [hdata] at hrows
    have hrowseq := Option.some.inj hrows
    rw [← hrowseq] at hrow
    obtain ⟨row0, hrow0mem, hrow0⟩ := List.mem_map.mp hrow
    have hlen : row0.length = u.npoints :=
      hwf u (List.getElem?_mem hu) row0 hrow0mem
    rw [← hrow0]
    exact padRow_getElem_ge row0 _ j (by omega) hjw
  · exact ⟨rfl, rfl, rfl, by decide⟩

/-- C1 witness: the padding invariant applied to the concrete ragged
6-step buffer. -/
theorem padding_invariant_witness :
    (emitDataset raggedRun6).num_points_max =
      listMax (raggedRun6.map (·.npoints)) ∧
    (emitDataset raggedRun6).num_points = raggedRun6.map (·.npoints) ∧
    (∀ (i : Nat) (u : RecordedUnit), raggedRun6[i]? = some u →
      ∀ (rows : List (List FloatVal)),
        (emitDataset raggedRun6).data[i]? = some rows →
        ∀ row ∈ rows, ∀ (j : Nat), u.npoints ≤ j →
          j < (emitDataset raggedRun6).num_points_max →
          row[j]? = some FloatVal.nan) :=
  padding_invariant_and_ragged_run.1 raggedRun6 (by decide)

/-- C8: a partial buffer of `k` recorded units emits a consistent
snapshot with `step = k`, every true length bounded by
`num_points_max`, and every in-range read (unit `i`, any direction,
point index `< num_points[i]`) returning the recorded raw value —
never the NaN padding sentinel. -/
theorem incremental_snapshot_consistency (buf : List RecordedUnit)
    (hwf : ∀ u ∈ buf, u.WF) :
    (emitDataset buf).step = buf.length ∧
    (∀ n ∈ (emitDataset buf).num_points,
      n ≤ (emitDataset buf).num_points_max) ∧
    (∀ (i : Nat) (u : RecordedUnit), buf[i]? = some u →
      ∀ (d : Nat) (row0 : List ℚ), u.values[d]? = some row0 →
        ∀ (j : Nat), j < u.npoints →
          ∃ x, row0[j]? = some x ∧
            datasetEntry (emitDataset buf) i d j =
              some (FloatVal.val x)) := by
  refine ⟨rfl, ?_, ?_⟩
  · intro n hn
    have hn2 : n ∈ buf.map (·.npoints) := hn
    exact le_listMax (buf.map (·.npoints)) n hn2
  · intro i u hu d row0 hrow0 j hj
    have hlen : row0.length = u.npoints :=
      hwf u (List.getElem?_mem hu) row0 (List.getElem?_mem hrow0)
    have hjlen : j < row0.length := by omega
    have hx : row0[j]? = some (row0.get ⟨j, hjlen⟩) := by
      rw [List.getElem?_eq_getElem hjlen]
      rfl
    refine ⟨row0.get ⟨j, hjlen⟩, hx, ?_⟩
    unfold datasetEntry
    have hdata := emitDataset_data_getElem buf i
    rw [hu] at hdata
    rw [hdata]
    simp only [Option.map_some', Option.some_bind]
    rw [List.getElem?_map _ u.values d, hrow0]
    simp only [Option.map_some', Option.some_bind]
    rw [padRow_getElem_lt row0 _ j hjlen, hx]
    rfl

/-- C8 witness: the two-unit partial prefix of the ragged run is a
consistent snapshot with `step = 2`. -/
theorem incremental_snapshot_consistency_witness :
    (emitDataset (raggedRun6.take 2)).step =
      (raggedRun6.take 2).length ∧
    (∀ n ∈ (emitDataset (raggedRun6.take 2)).num_points,
      n ≤ (emitDataset (raggedRun6.take 2)).num_points_max) ∧
    (∀ (i : Nat) (u : RecordedUnit), (raggedRun6.take 2)[i]? = some u →
      ∀ (d : Nat) (row0 : List ℚ), u.values[d]? = some row0 →
        ∀ (j : Nat), j < u.npoints →
          ∃ x, row0[j]? = some x ∧
            datasetEntry (emitDataset (raggedRun6.take 2)) i d j =
              some (FloatVal.val x)) :=
  incremental_snapshot_consistency (raggedRun6.take 2) (by decide)

/-- Replacing at an existing key leaves the key sequence unchanged. -/
theorem mapSet_keys_of_any (m : List (String × MonitorDataset))
    (k : String) (v : MonitorDataset)
    (h : m.any (fun p => p.1 = k) = true) :
    (mapSet m k v).map Prod.fst = m.map Prod.fst := by
  unfold mapSet
  rw [if_pos h, List.map_map]
  apply List.map_congr_left
  intro p hp
  by_cases hpk : p.1 = k
  · simp [hpk]
  · simp [hpk]

/-- `mapSet` preserves uniqueness of the keys. -/
theorem mapSet_keys_nodup (m : List (String × MonitorDataset))
    (k : String) (v : MonitorDataset)
    (h : (m.map Prod.fst).Nodup) :
    ((mapSet m k v).map Prod.fst).Nodup := by
  by_cases hk : m.any (fun p => p.1 = k) = true
  · rw [mapSet_keys_of_any m k v hk]
    exact h
  · unfold mapSet
    rw [if_neg hk, List.map_append]
    rw [List.nodup_append]
    refine ⟨h, by simp, ?_⟩
    intro a ha hb
    simp only [List.map_cons, List.map_nil, List.mem_singleton] at hb
    subst hb
    apply hk
    rw [List.any_eq_true]
    obtain ⟨p, hp, hpk⟩ := List.mem_map.mp ha
    exact ⟨p, hp, by simp [hpk]⟩

/-- Every entry of `mapSet m k v` is either an original entry of `m` or
the newly set pair. -/
theorem mapSet_mem (m : List (String × MonitorDataset)) (k : String)
    (v : MonitorDataset) (q : String × MonitorDataset)
    (h : q ∈ mapSet m k v) : q ∈ m ∨ q = (k, v) := by
  unfold mapSet at h
  by_cases hk : m.any (fun p => p.1 = k) = true
  · rw [if_pos hk] at h
    obtain ⟨p, hp, hq⟩ := List.mem_map.mp h
    by_cases hpk : p.1 = k
    · right
      rw [← hq]
      simp [hpk]
    · left
      rw [← hq]
      simpa [hpk] using hp
  · rw [if_neg hk] at h
    rcases List.mem_append.mp h with hm | hnew
    · exact Or.inl hm
    · exact Or.inr (List.mem_singleton.mp hnew)

/-- Setting an already-present key keeps the map size (replacement, not
duplication). -/
theorem mapSet_length_of_mem_keys (m : List (String × MonitorDataset))
    (k : String) (v : MonitorDataset) (h : k ∈ m.map Prod.fst) :
    (mapSet m k v).length = m.length := by
  have hany : m.any (fun p => p.1 = k) = true := by
    rw [List.any_eq_true]
    obtain ⟨p, hp, hpk⟩ := List.mem_map.mp h
    exact ⟨p, hp, by simp [hpk]⟩
  unfold mapSet
  rw [if_pos hany, List.length_map]

/-- C9: processing any incoming data event preserves the monitor
invariant — at most one dataset per timestamp and every stored entry
routed to the currently displayed program type; an event whose renderer
differs from the current one, or arriving with append off, resets the
map to exactly the new dataset; and an event carrying an
already-present timestamp in append mode replaces the entry instead of
adding a duplicate. -/
theorem monitor_datasets_invariant (st : MonitorState)
    (ev : MonitorEvent) (hinv : MonitorInv st) :
    MonitorInv (monitorOnMessage st ev) ∧
    (∀ r, lookupRenderer ev.program = some r →
      (r ≠ st.currProgramType ∨ st.append = false) →
      (monitorOnMessage st ev).datasets =
        [(ev.timestamp, ⟨ev.program, ev.step⟩)]) ∧
    (∀ r, lookupRenderer ev.program = some r →
      r = st.currProgramType → st.append = true →
      ev.timestamp ∈ st.datasets.map Prod.fst →
      (monitorOnMessage st ev).datasets.length =
        st.datasets.length) := by
  refine ⟨?_, ?_, ?_⟩
  · cases hre : lookupRenderer ev.program with
    | none => simpa [monitorOnMessage, hre] using hinv
    | some r =>
      by_cases hcur : r = st.currProgramType
      · by_cases happ : st.append = true
        · constructor
          · simp only [monitorOnMessage, hre, hcur, happ, if_pos rfl,
              if_pos rfl]
            exact mapSet_keys_nodup st.datasets ev.timestamp
              ⟨ev.program, ev.step⟩ hinv.1
          · intro q hq
            simp only [monitorOnMessage, hre, hcur, happ, if_pos rfl,
              if_pos rfl] at hq ⊢
            rcases mapSet_mem st.datasets ev.timestamp
                ⟨ev.program, ev.step⟩ q hq with hm | hnew
            · rw [hinv.2 q hm]
            · rw [hnew]
              rw [hre, hcur]
        · have happf : st.append = false := by
            cases h : st.append
            · rfl
            · exact absurd h happ
          constructor
          · simp [monitorOnMessage, hre, hcur, happf, mapSet]
          · intro q hq
            simp only [monitorOnMessage, hre, hcur, happf, if_pos rfl,
              Bool.false_eq_true, if_neg (Bool.false_ne_true)] at hq ⊢
            have : q ∈ mapSet [] ev.timestamp ⟨ev.program, ev.step⟩ := hq
            rcases mapSet_mem [] ev.timestamp
                ⟨ev.program, ev.step⟩ q this with hm | hnew
            · cases hm
            · rw [hnew]
              rw [hre, hcur]
      · constructor
        · simp [monitorOnMessage, hre, hcur, mapSet]
        · intro q hq
          simp only [monitorOnMessage, hre, if_neg hcur] at hq ⊢
          have : q ∈ mapSet [] ev.timestamp ⟨ev.program, ev.step⟩ := hq
          rcases mapSet_mem [] ev.timestamp
              ⟨ev.program, ev.step⟩ q this with hm | hnew
          · cases hm
          · rw [hnew]
            exact hre
  · intro r hre hreset
    rcases hreset with hne | happf
    · simp [monitorOnMessage, hre, hne, mapSet]
    · by_cases hcur : r = st.currProgramType
      · simp [monitorOnMessage, hre, hcur, happf, mapSet]
      · simp [monitorOnMessage, hre, hcur, mapSet]
  · intro r hre hcur happ hts
    simp only [monitorOnMessage, hre, hcur, happ, if_pos rfl,
      if_pos rfl]
    exact mapSet_length_of_mem_keys st.datasets ev.timestamp
      ⟨ev.program, ev.step⟩ hts

/-- C9 witness: the invariant holds after an RRAM event arrives while an
Id-Vgs dataset is displayed (the map resets to the new dataset). -/
theorem monitor_datasets_invariant_witness :
    MonitorInv (monitorOnMessage
      ⟨[("t1", ⟨"keysight_id_vgs", 1⟩)], true, "ProgramIdVgs"⟩
      ⟨"t2", "keysight_rram_1t1r", 0⟩) :=
  (monitor_datasets_invariant
    ⟨[("t1", ⟨"keysight_id_vgs", 1⟩)], true, "ProgramIdVgs"⟩
    ⟨"t2", "keysight_rram_1t1r", 0⟩ (by decide)).1
